import Mathlib

/-!
Verification of the SecuriWatch authentication-log collectors
(`backend/app/collectors/auth_collector.py` and
`backend/app/collectors/auth_collector_db.py`).

The Python code is shallowly embedded: strings are `List Char`, Python
`re` patterns are terms of a small backtracking regular-expression
engine whose alternative order mirrors Python's leftmost/priority
semantics (greedy `+`, lazy `+?`, greedy `?`, ordered alternation),
`datetime.strptime` is modelled by the exact component regexes CPython's
`_strptime` uses for the format `"%Y %b %d %H:%M:%S"`, and a raised
`ValueError` is modelled as `Except.error ()`.
-/

namespace SecuriWatch

/-! ## Character classes (Python `re` classes, ASCII fragment) -/

/-- Python `\w`: alphanumeric or underscore. -/
def isWordChar (c : Char) : Bool := c.isAlphanum || c = '_'

/-- Python `\s`: the ASCII whitespace characters. -/
def isSpaceChar (c : Char) : Bool :=
  c = ' ' || c = '\t' || c = '\n' || c = '\r' || c = '\x0b' || c = '\x0c'

/-- Python `\S`. -/
def isNonSpaceChar (c : Char) : Bool := !isSpaceChar c

/-- Python `\d`. -/
def isDigitChar (c : Char) : Bool := c.isDigit

/-- Python `.` without `re.DOTALL`: any character except a newline. -/
def isDotChar (c : Char) : Bool := c ≠ '\n'

/-! ## A small backtracking regex engine

Alternatives are produced in Python's priority order, so the head of the
result list is exactly the match Python's `re` would return. -/

/-- Capture list: `(group index, start, end)` triples, most recent first. -/
abbrev Caps := List (Nat × Nat × Nat)

/-- Value of a capture group: the most recently recorded span. -/
def lookupCap : Caps → Nat → Option (Nat × Nat)
  | [], _ => none
  | (i, a, b) :: t, k => if i = k then some (a, b) else lookupCap t k

mutual
/-- One syntactic regex element. Repetition operators are restricted to
single-character classes, which covers every pattern in the source. -/
inductive RItem : Type where
  | cls (p : Char → Bool)
  | lit (c : Char)
  | plusG (p : Char → Bool)
  | plusL (p : Char → Bool)
  | repG (lo hi : Nat) (p : Char → Bool)
  | optG (rs : RSeq)
  | grp (idx : Nat) (rs : RSeq)
  | alt2 (a b : RSeq)
  | wb

/-- A sequence of regex elements. -/
inductive RSeq : Type where
  | nil
  | cons (r : RItem) (rs : RSeq)
end

/-- Build an `RSeq` from a list of items. -/
def rseq : List RItem → RSeq
  | [] => .nil
  | r :: rs => .cons r (rseq rs)

/-- Length of the maximal run of characters satisfying `p` from index `i`. -/
def runLen (p : Char → Bool) (s : List Char) (i : Nat) : Nat :=
  ((s.drop i).takeWhile p).length

/-- Python `\b`: true iff exactly one side of position `i` is a word char. -/
def isBoundary (s : List Char) (i : Nat) : Bool :=
  let pre :=
    match i with
    | 0 => false
    | k + 1 => (match s[k]? with | some ch => isWordChar ch | none => false)
  let cur := (match s[i]? with | some ch => isWordChar ch | none => false)
  pre != cur

mutual
/-- All ways one item can match `s` at position `i`, in Python's priority
order; each result is the end position with the updated capture list. -/
def matchItem : RItem → List Char → Nat → Caps → List (Nat × Caps)
  | .cls p, s, i, c =>
    match s[i]? with
    | some ch => if p ch then [(i + 1, c)] else []
    | none => []
  | .lit ch, s, i, c =>
    match s[i]? with
    | some ch2 => if ch2 = ch then [(i + 1, c)] else []
    | none => []
  | .plusG p, s, i, c =>
    (List.range (runLen p s i)).map (fun k => (i + runLen p s i - k, c))
  | .plusL p, s, i, c =>
    (List.range (runLen p s i)).map (fun k => (i + 1 + k, c))
  | .repG lo hi p, s, i, c =>
    let n := min (runLen p s i) hi
    if n < lo then [] else (List.range (n + 1 - lo)).map (fun k => (i + n - k, c))
  | .optG rs, s, i, c => matchSeq rs s i c ++ [(i, c)]
  | .grp idx rs, s, i, c =>
    (matchSeq rs s i c).map (fun jc => (jc.1, (idx, i, jc.1) :: jc.2))
  | .alt2 a b, s, i, c => matchSeq a s i c ++ matchSeq b s i c
  | .wb, s, i, c => if isBoundary s i then [(i, c)] else []

/-- All ways a sequence can match, in priority order. -/
def matchSeq : RSeq → List Char → Nat → Caps → List (Nat × Caps)
  | .nil, _, i, c => [(i, c)]
  | .cons r rs, s, i, c =>
    (matchItem r s i c).flatMap (fun jc => matchSeq rs s jc.1 jc.2)
end

/-- Python `re.match`: the regex anchored at position 0; returns the end
position and captures of the leftmost-priority match. -/
def rmatch (rs : RSeq) (s : List Char) : Option (Nat × Caps) :=
  (matchSeq rs s 0 []).head?

/-- Try `re.search` at positions `i, i+1, ...` with the given fuel. -/
def rsearchAux (rs : RSeq) (s : List Char) : Nat → Nat → Option (Nat × Nat × Caps)
  | _, 0 => none
  | i, fuel + 1 =>
    match (matchSeq rs s i []).head? with
    | some (j, c) => some (i, j, c)
    | none => rsearchAux rs s (i + 1) fuel

/-- Python `re.search`: the first position at which the pattern matches. -/
def rsearch (rs : RSeq) (s : List Char) : Option (Nat × Nat × Caps) :=
  rsearchAux rs s 0 (s.length + 1)

/-- The substring of `s` from position `a` (inclusive) to `b` (exclusive). -/
def extractSpan (s : List Char) (a b : Nat) : List Char :=
  (s.drop a).take (b - a)

/-! ## Python string helpers -/

/-- Python `str.lower` (ASCII fragment). -/
def lowerStr (s : List Char) : List Char := s.map Char.toLower

/-- Whether `needle` occurs as a contiguous substring of `hay`
(Python's `needle in hay`). -/
def containsSub (hay needle : List Char) : Bool :=
  match hay with
  | [] => needle.isEmpty
  | _ :: t => needle.isPrefixOf hay || containsSub t needle

/-- Python truthiness of `line.strip()`: some character is not whitespace. -/
def hasNonSpace (l : List Char) : Bool := l.any isNonSpaceChar

/-- Decimal digits to a natural number (Python `int` on a digit string). -/
def digitsToNat (l : List Char) : Nat :=
  l.foldl (fun a c => a * 10 + (c.toNat - 48)) 0

/-! ## The concrete patterns of the source -/

/-- A literal-characters run as regex items. -/
def litsOf (s : String) : List RItem := s.data.map RItem.lit

/-- The header pattern of `parse_log_line`
(both variants use the identical pattern text). -/
def authRegex : RSeq :=
  rseq ([RItem.grp 1 (rseq [RItem.plusG isWordChar, RItem.plusG isSpaceChar,
            RItem.plusG isDigitChar, RItem.plusG isSpaceChar,
            RItem.plusG isDigitChar, RItem.lit ':', RItem.plusG isDigitChar,
            RItem.lit ':', RItem.plusG isDigitChar]),
         RItem.plusG isSpaceChar,
         RItem.grp 2 (rseq [RItem.plusG isNonSpaceChar]),
         RItem.plusG isSpaceChar,
         RItem.grp 3 (rseq [RItem.plusL isNonSpaceChar]),
         RItem.optG (rseq [RItem.lit '[', RItem.grp 4 (rseq [RItem.plusG isDigitChar]),
            RItem.lit ']']),
         RItem.lit ':',
         RItem.plusG isSpaceChar,
         RItem.grp 5 (rseq [RItem.plusG isDotChar])])

/-- The user pattern of both variants. -/
def userPat1 : RSeq := rseq (litsOf "user " ++ [RItem.grp 1 (rseq [RItem.plusG isWordChar])])

/-- The second user pattern of both variants. -/
def userPat2 : RSeq := rseq (litsOf "for " ++ [RItem.grp 1 (rseq [RItem.plusG isWordChar])])

/-- The third pattern of the console variant only; it has no capture group. -/
def uidPat : RSeq := rseq (litsOf "by (uid=" ++ [RItem.plusG isDigitChar, RItem.lit ')'])

/-- The dotted-quad IP pattern of both variants. -/
def ipPat : RSeq :=
  rseq [RItem.wb, RItem.repG 1 3 isDigitChar, RItem.lit '.',
        RItem.repG 1 3 isDigitChar, RItem.lit '.',
        RItem.repG 1 3 isDigitChar, RItem.lit '.',
        RItem.repG 1 3 isDigitChar, RItem.wb]

/-! ## `datetime.strptime` for the format `"%Y %b %d %H:%M:%S"`

CPython's `_strptime` compiles the format into a regex (whitespace in the
format becomes `\s+`, the whole regex is case-insensitive), matches it at
the start of the data, rejects unconverted trailing data, and finally the
`datetime` constructor validates the calendar fields.  The component
regexes below are the literal ones from `_strptime.TimeRE`. -/

/-- A three-letter month abbreviation, matched case-insensitively. -/
def m3 (s : String) : RSeq :=
  rseq (s.data.map (fun a => RItem.cls (fun ch => ch.toLower = a)))

/-- A single item as a sequence, for nesting alternations. -/
def alt1 (r : RItem) : RSeq := rseq [r]

/-- The `%b` alternation `jan|feb|...|dec` (case-insensitive). -/
def monthsAlt : RItem :=
  RItem.alt2 (m3 "jan") (alt1 (RItem.alt2 (m3 "feb") (alt1 (RItem.alt2 (m3 "mar")
    (alt1 (RItem.alt2 (m3 "apr") (alt1 (RItem.alt2 (m3 "may") (alt1 (RItem.alt2 (m3 "jun")
    (alt1 (RItem.alt2 (m3 "jul") (alt1 (RItem.alt2 (m3 "aug") (alt1 (RItem.alt2 (m3 "sep")
    (alt1 (RItem.alt2 (m3 "oct") (alt1 (RItem.alt2 (m3 "nov") (m3 "dec")))))))))))))))))))))

/-- The `%d` regex `3[01]|[12]\d|0[1-9]|[1-9]`. -/
def dayAlt : RItem :=
  RItem.alt2 (rseq [RItem.lit '3', RItem.cls (fun c => c = '0' || c = '1')])
    (alt1 (RItem.alt2 (rseq [RItem.cls (fun c => c = '1' || c = '2'), RItem.cls isDigitChar])
      (alt1 (RItem.alt2 (rseq [RItem.lit '0', RItem.cls (fun c => isDigitChar c && c ≠ '0')])
        (rseq [RItem.cls (fun c => isDigitChar c && c ≠ '0')])))))

/-- The `%H` regex `2[0-3]|[0-1]\d|\d`. -/
def hourAlt : RItem :=
  RItem.alt2 (rseq [RItem.lit '2', RItem.cls (fun c => c = '0' || c = '1' || c = '2' || c = '3')])
    (alt1 (RItem.alt2 (rseq [RItem.cls (fun c => c = '0' || c = '1'), RItem.cls isDigitChar])
      (rseq [RItem.cls isDigitChar])))

/-- The `%M` regex `[0-5]\d|\d`. -/
def minuteAlt : RItem :=
  RItem.alt2 (rseq [RItem.cls (fun c => isDigitChar c && c ≤ '5'), RItem.cls isDigitChar])
    (rseq [RItem.cls isDigitChar])

/-- The `%S` regex `6[0-1]|[0-5]\d|\d`. -/
def secondAlt : RItem :=
  RItem.alt2 (rseq [RItem.lit '6', RItem.cls (fun c => c = '0' || c = '1')])
    (alt1 (RItem.alt2 (rseq [RItem.cls (fun c => isDigitChar c && c ≤ '5'), RItem.cls isDigitChar])
      (rseq [RItem.cls isDigitChar])))

/-- The full regex `_strptime` builds for `"%Y %b %d %H:%M:%S"`;
`%Y` is `\d\d\d\d` and the format's spaces become `\s+`. -/
def strptimeRegex : RSeq :=
  rseq [RItem.grp 1 (rseq [RItem.cls isDigitChar, RItem.cls isDigitChar,
            RItem.cls isDigitChar, RItem.cls isDigitChar]),
        RItem.plusG isSpaceChar,
        RItem.grp 2 (rseq [monthsAlt]),
        RItem.plusG isSpaceChar,
        RItem.grp 3 (rseq [dayAlt]),
        RItem.plusG isSpaceChar,
        RItem.grp 4 (rseq [hourAlt]),
        RItem.lit ':',
        RItem.grp 5 (rseq [minuteAlt]),
        RItem.lit ':',
        RItem.grp 6 (rseq [secondAlt])]

/-- Lowercase month abbreviations, January first. -/
def monthAbbrevs : List (List Char) :=
  ["jan".data, "feb".data, "mar".data, "apr".data, "may".data, "jun".data,
   "jul".data, "aug".data, "sep".data, "oct".data, "nov".data, "dec".data]

/-- 1-based month number of a matched abbreviation. -/
def monthIndex (w : List Char) : Option Nat :=
  (monthAbbrevs.findIdx? (fun a => a = lowerStr w)).map (· + 1)

/-- Gregorian leap-year rule (Python `calendar.isleap`). -/
def isLeapYear (y : Nat) : Bool := (y % 4 = 0 && y % 100 ≠ 0) || y % 400 = 0

/-- Number of days in a month. -/
def daysInMonth (y m : Nat) : Nat :=
  if m = 2 then (if isLeapYear y then 29 else 28)
  else if m = 4 || m = 6 || m = 9 || m = 11 then 30
  else 31

/-- A `datetime.datetime` value with second resolution. -/
structure PyDateTime where
  year : Nat
  month : Nat
  day : Nat
  hour : Nat
  minute : Nat
  second : Nat
deriving DecidableEq

/-- The `datetime` constructor's field validation. -/
def mkDatetime (y mo d h mi s : Nat) : Option PyDateTime :=
  if 1 ≤ y ∧ y ≤ 9999 ∧ 1 ≤ mo ∧ mo ≤ 12 ∧ 1 ≤ d ∧ d ≤ daysInMonth y mo
      ∧ h ≤ 23 ∧ mi ≤ 59 ∧ s ≤ 59 then
    some ⟨y, mo, d, h, mi, s⟩
  else none

/-- `datetime.strptime(f"{current_year} {ts}", "%Y %b %d %H:%M:%S")`:
`none` models the raised `ValueError`. -/
def strptimeSyslog (current_year : Nat) (ts : List Char) : Option PyDateTime :=
  let data := Nat.toDigits 10 current_year ++ ' ' :: ts
  match rmatch strptimeRegex data with
  | none => none
  | some (e, caps) =>
    if e = data.length then
      match lookupCap caps 1, lookupCap caps 2, lookupCap caps 3,
            lookupCap caps 4, lookupCap caps 5, lookupCap caps 6 with
      | some gy, some gb, some gd, some gh, some gmi, some gs =>
        match monthIndex (extractSpan data gb.1 gb.2) with
        | some mo =>
          mkDatetime (digitsToNat (extractSpan data gy.1 gy.2)) mo
            (digitsToNat (extractSpan data gd.1 gd.2))
            (digitsToNat (extractSpan data gh.1 gh.2))
            (digitsToNat (extractSpan data gmi.1 gmi.2))
            (digitsToNat (extractSpan data gs.1 gs.2))
        | none => none
      | _, _, _, _, _, _ => none
    else none

/-- Left-pad with zeros to width `w`. -/
def padZeros (w : Nat) (l : List Char) : List Char :=
  List.replicate (w - l.length) '0' ++ l

/-- `datetime.isoformat()` for a whole-second value. -/
def isoformatDT (d : PyDateTime) : List Char :=
  padZeros 4 (Nat.toDigits 10 d.year) ++ '-' :: padZeros 2 (Nat.toDigits 10 d.month)
    ++ '-' :: padZeros 2 (Nat.toDigits 10 d.day) ++ 'T' :: padZeros 2 (Nat.toDigits 10 d.hour)
    ++ ':' :: padZeros 2 (Nat.toDigits 10 d.minute) ++ ':' :: padZeros 2 (Nat.toDigits 10 d.second)

/-! ## Classification, scoring and extraction

`_detect_event_type`, `_extract_ip` and `_calculate_risk` have
character-identical bodies in the two collector classes, so each is
embedded once.  `_extract_user` differs between the variants and is
embedded twice. -/

/-- `_detect_event_type` (identical in both variants). -/
def detect_event_type (process message : List Char) : List Char :=
  if containsSub (lowerStr process) "sudo".data then "SUDO_COMMAND".data
  else if containsSub message "session opened".data then "SESSION_OPEN".data
  else if containsSub message "session closed".data then "SESSION_CLOSE".data
  else if containsSub (lowerStr message) "authentication failure".data then "AUTH_FAILURE".data
  else if containsSub (lowerStr message) "accepted".data then "AUTH_SUCCESS".data
  else if containsSub (lowerStr message) "invalid user".data then "INVALID_USER".data
  else if containsSub (lowerStr process) "cron".data then "CRON_JOB".data
  else "OTHER".data

/-- The `risk_scores` dict literal. -/
def risk_scores : List (List Char × Int) :=
  [("AUTH_FAILURE".data, 7), ("INVALID_USER".data, 8), ("SUDO_COMMAND".data, 5),
   ("AUTH_SUCCESS".data, 2), ("SESSION_OPEN".data, 3), ("SESSION_CLOSE".data, 1),
   ("CRON_JOB".data, 1), ("OTHER".data, 2)]

/-- Python `dict.get` with a default. -/
def dictGetInt : List (List Char × Int) → List Char → Int → Int
  | [], _, dflt => dflt
  | (k2, v) :: t, k, dflt => if k2 = k then v else dictGetInt t k dflt

/-- `_calculate_risk` (identical in both variants). -/
def calculate_risk (event_type message : List Char) : Int :=
  let base0 := dictGetInt risk_scores event_type 2
  let base1 := if containsSub (lowerStr message) "failed".data then base0 + 2 else base0
  let base2 := if containsSub (lowerStr message) "root".data then base1 + 1 else base1
  min base2 10

/-- The per-pattern body of the console `_extract_user` loop:
`match.group(1) if match.lastindex else 'root'`. -/
def userOfMatch (m : List Char) (res : Nat × Nat × Caps) : List Char :=
  match lookupCap res.2.2 1 with
  | some ab => extractSpan m ab.1 ab.2
  | none => "root".data

/-- The console `_extract_user` pattern loop over
`[r'user (\w+)', r'for (\w+)', r'by \(uid=\d+\)']`. -/
def userLoopConsole : List RSeq → List Char → Option (List Char)
  | [], _ => none
  | p :: ps, m =>
    match rsearch p m with
    | some res => some (userOfMatch m res)
    | none => userLoopConsole ps m

/-- `AuthLogCollector._extract_user` (console variant). -/
def extract_user_console (message : List Char) : List Char :=
  match userLoopConsole [userPat1, userPat2, uidPat] message with
  | some u => u
  | none => "unknown".data

/-- The db `_extract_user` pattern loop over
`[r'user (\w+)', r'for (\w+)']`; the body is `match.group(1)`. -/
def userLoopDB : List RSeq → List Char → Option (List Char)
  | [], _ => none
  | p :: ps, m =>
    match rsearch p m with
    | some res =>
      match lookupCap res.2.2 1 with
      | some ab => some (extractSpan m ab.1 ab.2)
      | none => some []
    | none => userLoopDB ps m

/-- `AuthLogCollectorDB._extract_user` (db variant). -/
def extract_user_db (message : List Char) : List Char :=
  match userLoopDB [userPat1, userPat2] message with
  | some u => u
  | none =>
    if containsSub (lowerStr message) "root".data then "root".data
    else "unknown".data

/-- `_extract_ip` (identical in both variants): `match.group(0)` of the
first dotted-quad occurrence, or `None`. -/
def extract_ip (message : List Char) : Option (List Char) :=
  (rsearch ipPat message).map (fun res => extractSpan message res.1 res.2.1)

/-! ## The per-line parsers -/

/-- The dict returned by the console `parse_log_line`; `timestamp` holds
`timestamp.isoformat()` and `pid` the raw digit string. -/
structure LogRecC where
  timestamp : List Char
  hostname : List Char
  process : List Char
  pid : Option (List Char)
  event_type : List Char
  user : List Char
  ip_address : Option (List Char)
  message : List Char
  risk_score : Int
  raw_log : List Char
deriving DecidableEq

/-- The dict returned by the db `parse_log_line`; `timestamp` is the
`datetime` value and `pid` is `int(pid)`. -/
structure LogRecDB where
  timestamp : PyDateTime
  hostname : List Char
  process : List Char
  pid : Option Int
  event_type : List Char
  user_name : List Char
  ip_address : Option (List Char)
  message : List Char
  risk_score : Int
  raw_log : List Char
deriving DecidableEq

/-- `AuthLogCollector.parse_log_line`.  `Except.error ()` is the
`ValueError` that `datetime.strptime` raises when the header regex matched
but the timestamp text is not a valid date; `.ok none` is the `return None`
on a structural mismatch. -/
def parse_log_line_console (current_year : Nat) (line : List Char) :
    Except Unit (Option LogRecC) :=
  match rmatch authRegex line with
  | none => .ok none
  | some (_, caps) =>
    match lookupCap caps 1, lookupCap caps 2, lookupCap caps 3, lookupCap caps 5 with
    | some g1, some g2, some g3, some g5 =>
      let timestamp_str := extractSpan line g1.1 g1.2
      let hostname := extractSpan line g2.1 g2.2
      let process := extractSpan line g3.1 g3.2
      let pid := (lookupCap caps 4).map (fun g4 => extractSpan line g4.1 g4.2)
      let message := extractSpan line g5.1 g5.2
      match strptimeSyslog current_year timestamp_str with
      | none => .error ()
      | some dt =>
        let event_type := detect_event_type process message
        .ok (some
          { timestamp := isoformatDT dt
            hostname := hostname
            process := process
            pid := pid
            event_type := event_type
            user := extract_user_console message
            ip_address := extract_ip message
            message := message
            risk_score := calculate_risk event_type message
            raw_log := line })
    | _, _, _, _ => .ok none

/-- `AuthLogCollectorDB.parse_log_line`. -/
def parse_log_line_db (current_year : Nat) (line : List Char) :
    Except Unit (Option LogRecDB) :=
  match rmatch authRegex line with
  | none => .ok none
  | some (_, caps) =>
    match lookupCap caps 1, lookupCap caps 2, lookupCap caps 3, lookupCap caps 5 with
    | some g1, some g2, some g3, some g5 =>
      let timestamp_str := extractSpan line g1.1 g1.2
      let hostname := extractSpan line g2.1 g2.2
      let process := extractSpan line g3.1 g3.2
      let pid := (lookupCap caps 4).map (fun g4 => (digitsToNat (extractSpan line g4.1 g4.2) : Int))
      let message := extractSpan line g5.1 g5.2
      match strptimeSyslog current_year timestamp_str with
      | none => .error ()
      | some dt =>
        let event_type := detect_event_type process message
        .ok (some
          { timestamp := dt
            hostname := hostname
            process := process
            pid := pid
            event_type := event_type
            user_name := extract_user_db message
            ip_address := extract_ip message
            message := message
            risk_score := calculate_risk event_type message
            raw_log := line })
    | _, _, _, _ => .ok none

/-! ## The collection pipeline and the top-5 listings -/

/-- `AuthLogCollector.collect`'s loop over the raw lines: blank lines are
skipped, `None` parses are dropped, and an uncaught `ValueError` aborts
the whole collection. -/
def collect_console (current_year : Nat) : List (List Char) → Except Unit (List LogRecC)
  | [] => .ok []
  | l :: ls =>
    if hasNonSpace l then
      match parse_log_line_console current_year l with
      | .error e => .error e
      | .ok none => collect_console current_year ls
      | .ok (some r) =>
        match collect_console current_year ls with
        | .error e => .error e
        | .ok rs => .ok (r :: rs)
    else collect_console current_year ls

/-- Ordering used by the console `display_summary`:
`sorted(risk_events, key=lambda x: x['risk_score'], reverse=True)`;
`a` may be placed before `b` iff `b`'s score does not exceed `a`'s. -/
def riskOrderC (a b : LogRecC) : Prop := b.risk_score ≤ a.risk_score

instance : DecidableRel riskOrderC := fun a b =>
  inferInstanceAs (Decidable (b.risk_score ≤ a.risk_score))

/-- Top-5 listing of the console `display_summary`: filter `risk_score >= 5`,
stable sort by score descending, take 5. -/
def top5_console (logs : List LogRecC) : List LogRecC :=
  (List.insertionSort riskOrderC (logs.filter (fun l => decide (5 ≤ l.risk_score)))).take 5

/-- `datetime` comparison: lexicographic on the six fields. -/
def dtLe (a b : PyDateTime) : Prop :=
  a.year < b.year ∨ (a.year = b.year ∧ (a.month < b.month ∨ (a.month = b.month ∧
    (a.day < b.day ∨ (a.day = b.day ∧ (a.hour < b.hour ∨ (a.hour = b.hour ∧
      (a.minute < b.minute ∨ (a.minute = b.minute ∧ a.second ≤ b.second)))))))))

instance : ∀ a b, Decidable (dtLe a b) := fun a b => by
  unfold dtLe; infer_instance

/-- The sort key of the db `display_stats` query
`order_by(Log.risk_score.desc(), Log.timestamp.desc())`:
`a ≤ b` in the (score, timestamp) lexicographic order. -/
def dbKeyLe (a b : LogRecDB) : Prop :=
  a.risk_score < b.risk_score ∨ (a.risk_score = b.risk_score ∧ dtLe a.timestamp b.timestamp)

instance : ∀ a b, Decidable (dbKeyLe a b) := fun a b => by
  unfold dbKeyLe; infer_instance

/-- `a` may precede `b` in the db listing iff `b`'s key does not exceed
`a`'s (SQL's `ORDER BY` is modelled as a stable sort on the two keys). -/
def riskOrderDB (a b : LogRecDB) : Prop := dbKeyLe b a

instance : DecidableRel riskOrderDB := fun a b =>
  inferInstanceAs (Decidable (dbKeyLe b a))

/-- Top-5 listing of the db `display_stats`: `filter(Log.risk_score >= 5)
.order_by(Log.risk_score.desc(), Log.timestamp.desc()).limit(5)`. -/
def top5_db (logs : List LogRecDB) : List LogRecDB :=
  (List.insertionSort riskOrderDB (logs.filter (fun l => decide (5 ≤ l.risk_score)))).take 5

instance {ε α : Type} [DecidableEq ε] [DecidableEq α] : DecidableEq (Except ε α) := fun a b =>
  match a, b with
  | .ok x, .ok y =>
    if h : x = y then .isTrue (by rw [h]) else .isFalse (by intro hh; cases hh; exact h rfl)
  | .error x, .error y =>
    if h : x = y then .isTrue (by rw [h]) else .isFalse (by intro hh; cases hh; exact h rfl)
  | .ok _, .error _ => .isFalse (by intro hh; cases hh)
  | .error _, .ok _ => .isFalse (by intro hh; cases hh)

/-- The record a single raw line contributes to `collect`'s output list:
`none` for a blank line, a non-matching line, or (vacuously, under the
no-`ValueError` hypothesis used below) a raising line. -/
def lineRec (current_year : Nat) (l : List Char) : Option LogRecC :=
  if hasNonSpace l then
    match parse_log_line_console current_year l with
    | .ok (some r) => some r
    | _ => none
  else none

mutual
/-- All capture-group indices syntactically occurring in an item. -/
def capIdxsItem : RItem → List Nat
  | .grp idx rs => idx :: capIdxsSeq rs
  | .optG rs => capIdxsSeq rs
  | .alt2 a b => capIdxsSeq a ++ capIdxsSeq b
  | _ => []

/-- All capture-group indices syntactically occurring in a sequence. -/
def capIdxsSeq : RSeq → List Nat
  | .nil => []
  | .cons r rs => capIdxsItem r ++ capIdxsSeq rs
end

mutual
/-- Capture-group indices that participate in every successful match
(groups under `?` or an alternation are excluded). -/
def mandIdxsItem : RItem → List Nat
  | .grp idx rs => idx :: mandIdxsSeq rs
  | _ => []

/-- Mandatory capture-group indices of a sequence. -/
def mandIdxsSeq : RSeq → List Nat
  | .nil => []
  | .cons r rs => mandIdxsItem r ++ mandIdxsSeq rs
end

/-! ## Concrete sample data used by the closed theorems -/

/-- The concrete scenario line of the spec. -/
def lineC7 : String :=
  "Jan 21 22:04:35 myhost sshd[1234]: Failed password for invalid user admin from 10.0.0.5 port 22 ssh2"

/-- A line matching the header pattern whose month name is not a valid
`%b` abbreviation. -/
def lineBadMonth : String := "Foo 21 22:04:35 myhost sshd[1234]: hello"

/-- A second header-shaped line with an invalid month name. -/
def lineBadMonth2 : String := "Bar 9 10:11:12 host cron[7]: test"

/-- A small well-formed line. -/
def lineGood : String := "Jan 2 3:04:05 a b: c"

/-- A header-shaped line dated February 29. -/
def lineFeb29 : String := "Feb 29 10:00:00 h sshd: Accepted password for alice"

/-- A line whose message mentions root but matches no user pattern. -/
def lineRoot : String := "Jan 21 22:04:35 myhost sshd[99]: root password changed"

/-- The console record produced for `lineGood` (year 2025). -/
def recGoodC : LogRecC :=
  { timestamp := "2025-01-02T03:04:05".data
    hostname := "a".data
    process := "b".data
    pid := none
    event_type := "OTHER".data
    user := "unknown".data
    ip_address := none
    message := "c".data
    risk_score := 2
    raw_log := lineGood.data }

/-- The console record produced for `lineGood` under a given current
year (only the timestamp text depends on the year). -/
def recGoodCY (y : String) : LogRecC :=
  { timestamp := (y ++ "-01-02T03:04:05").data
    hostname := "a".data
    process := "b".data
    pid := none
    event_type := "OTHER".data
    user := "unknown".data
    ip_address := none
    message := "c".data
    risk_score := 2
    raw_log := lineGood.data }

/-- A console event with the given timestamp text, score and tag. -/
def mkEvC (ts : String) (score : Int) (tag : String) : LogRecC :=
  { timestamp := ts.data
    hostname := "h".data
    process := "sshd".data
    pid := none
    event_type := "OTHER".data
    user := "u".data
    ip_address := none
    message := tag.data
    risk_score := score
    raw_log := tag.data }

/-- Console events with scores `[9,9,7,8,9]` and increasing timestamps. -/
def evC1 : LogRecC := mkEvC "2025-01-01T00:00:01" 9 "e1"

/-- Second console event (score 9). -/
def evC2 : LogRecC := mkEvC "2025-01-01T00:00:02" 9 "e2"

/-- Third console event (score 7). -/
def evC3 : LogRecC := mkEvC "2025-01-01T00:00:03" 7 "e3"

/-- Fourth console event (score 8). -/
def evC4 : LogRecC := mkEvC "2025-01-01T00:00:04" 8 "e4"

/-- Fifth console event (score 9, the latest). -/
def evC5 : LogRecC := mkEvC "2025-01-01T00:00:05" 9 "e5"

/-- A db event with the given final-second timestamp, score and tag. -/
def mkEvDB (sec : Nat) (score : Int) (tag : String) : LogRecDB :=
  { timestamp := ⟨2025, 1, 1, 0, 0, sec⟩
    hostname := "h".data
    process := "sshd".data
    pid := none
    event_type := "OTHER".data
    user_name := "u".data
    ip_address := none
    message := tag.data
    risk_score := score
    raw_log := tag.data }

/-- Db events with scores `[9,9,7,8,9]` and increasing timestamps. -/
def evD1 : LogRecDB := mkEvDB 1 9 "d1"

/-- Second db event (score 9). -/
def evD2 : LogRecDB := mkEvDB 2 9 "d2"

/-- Third db event (score 7). -/
def evD3 : LogRecDB := mkEvDB 3 7 "d3"

/-- Fourth db event (score 8). -/
def evD4 : LogRecDB := mkEvDB 4 8 "d4"

/-- Fifth db event (score 9, the latest). -/
def evD5 : LogRecDB := mkEvDB 5 9 "d5"

/-! ## Engine lemmas -/

theorem runLen_le (p : Char → Bool) (s : List Char) (i : Nat) :
    runLen p s i ≤ s.length - i := by
  have h := (List.takeWhile_sublist p (l := s.drop i)).length_le
  simpa [runLen, List.length_drop] using h

theorem extractSpan_ne_nil {s : List Char} {a b : Nat} (ha : a < s.length) (hab : a < b) :
    extractSpan s a b ≠ [] := by
  intro h
  have hlen := congrArg List.length h
  simp only [extractSpan, List.length_take, List.length_drop, List.length_nil] at hlen
  omega

theorem lookupCap_append_some {pre c : Caps} {k : Nat} {ab : Nat × Nat}
    (h : lookupCap c k = some ab) : ∃ ab2, lookupCap (pre ++ c) k = some ab2 := by
  induction pre with
  | nil => exact ⟨ab, h⟩
  | cons x t ih =>
    obtain ⟨x1, x2, x3⟩ := x
    by_cases hx : x1 = k
    · exact ⟨(x2, x3), by simp [lookupCap, hx]⟩
    · obtain ⟨ab2, hab2⟩ := ih
      exact ⟨ab2, by simpa [lookupCap, hx] using hab2⟩

mutual
theorem matchItem_bounds : ∀ (r : RItem) (s : List Char) (i : Nat) (c : Caps)
    (j : Nat) (c2 : Caps), (j, c2) ∈ matchItem r s i c →
    i ≤ j ∧ (i ≤ s.length → j ≤ s.length)
  | .cls p, s, i, c, j, c2 => by
    intro h
    simp only [matchItem] at h
    cases hg : s[i]? with
    | none => rw [hg] at h; simp at h
    | some ch =>
      rw [hg] at h
      by_cases hp : p ch
      · simp only [hp, if_true, List.mem_singleton, Prod.mk.injEq] at h
        obtain ⟨h1, _⟩ := h
        obtain ⟨hi, -⟩ := List.getElem?_eq_some_iff.mp hg
        omega
      · simp [hp] at h
  | .lit ch, s, i, c, j, c2 => by
    intro h
    simp only [matchItem] at h
    cases hg : s[i]? with
    | none => rw [hg] at h; simp at h
    | some ch2 =>
      rw [hg] at h
      by_cases hp : ch2 = ch
      · simp only [hp, if_true, List.mem_singleton, Prod.mk.injEq] at h
        obtain ⟨h1, _⟩ := h
        obtain ⟨hi, -⟩ := List.getElem?_eq_some_iff.mp hg
        omega
      · simp [hp] at h
  | .plusG p, s, i, c, j, c2 => by
    intro h
    simp only [matchItem, List.mem_map, List.mem_range] at h
    obtain ⟨k, hk, heq⟩ := h
    have hr := runLen_le p s i
    obtain ⟨h1, -⟩ := Prod.mk.injEq .. |>.mp heq
    omega
  | .plusL p, s, i, c, j, c2 => by
    intro h
    simp only [matchItem, List.mem_map, List.mem_range] at h
    obtain ⟨k, hk, heq⟩ := h
    have hr := runLen_le p s i
    obtain ⟨h1, -⟩ := Prod.mk.injEq .. |>.mp heq
    omega
  | .repG lo hi p, s, i, c, j, c2 => by
    intro h
    simp only [matchItem] at h
    split at h
    · simp at h
    · simp only [List.mem_map, List.mem_range] at h
      obtain ⟨k, hk, heq⟩ := h
      have hr := runLen_le p s i
      have hm : min (runLen p s i) hi ≤ runLen p s i := Nat.min_le_left _ _
      obtain ⟨h1, -⟩ := Prod.mk.injEq .. |>.mp heq
      omega
  | .optG rs, s, i, c, j, c2 => by
    intro h
    simp only [matchItem, List.mem_append] at h
    rcases h with h | h
    · exact matchSeq_bounds rs s i c j c2 h
    · simp only [List.mem_singleton, Prod.mk.injEq] at h
      obtain ⟨h1, -⟩ := h
      omega
  | .grp idx rs, s, i, c, j, c2 => by
    intro h
    simp only [matchItem, List.mem_map] at h
    obtain ⟨⟨m, cm⟩, hm, heq⟩ := h
    obtain ⟨h1, -⟩ := Prod.mk.injEq .. |>.mp heq
    have := matchSeq_bounds rs s i c m cm hm
    omega
  | .alt2 a b, s, i, c, j, c2 => by
    intro h
    simp only [matchItem, List.mem_append] at h
    rcases h with h | h
    · exact matchSeq_bounds a s i c j c2 h
    · exact matchSeq_bounds b s i c j c2 h
  | .wb, s, i, c, j, c2 => by
    intro h
    simp only [matchItem] at h
    split at h
    · simp only [List.mem_singleton, Prod.mk.injEq] at h
      obtain ⟨h1, -⟩ := h
      omega
    · simp at h

theorem matchSeq_bounds : ∀ (rs : RSeq) (s : List Char) (i : Nat) (c : Caps)
    (j : Nat) (c2 : Caps), (j, c2) ∈ matchSeq rs s i c →
    i ≤ j ∧ (i ≤ s.length → j ≤ s.length)
  | .nil, s, i, c, j, c2 => by
    intro h
    simp only [matchSeq, List.mem_singleton, Prod.mk.injEq] at h
    obtain ⟨h1, -⟩ := h
    omega
  | .cons r rs, s, i, c, j, c2 => by
    intro h
    simp only [matchSeq, List.mem_flatMap] at h
    obtain ⟨⟨m, cm⟩, hm, htail⟩ := h
    have h1 := matchItem_bounds r s i c m cm hm
    have h2 := matchSeq_bounds rs s m cm j c2 htail
    exact ⟨le_trans h1.1 h2.1, fun hl => h2.2 (h1.2 hl)⟩
end

mutual
theorem matchItem_suffix : ∀ (r : RItem) (s : List Char) (i : Nat) (c : Caps)
    (j : Nat) (c2 : Caps), (j, c2) ∈ matchItem r s i c → ∃ pre, c2 = pre ++ c
  | .cls p, s, i, c, j, c2 => by
    intro h
    simp only [matchItem] at h
    cases hg : s[i]? with
    | none => rw [hg] at h; simp at h
    | some ch =>
      rw [hg] at h
      by_cases hp : p ch
      · simp only [hp, if_true, List.mem_singleton, Prod.mk.injEq] at h
        exact ⟨[], h.2.symm ▸ rfl⟩
      · simp [hp] at h
  | .lit ch, s, i, c, j, c2 => by
    intro h
    simp only [matchItem] at h
    cases hg : s[i]? with
    | none => rw [hg] at h; simp at h
    | some ch2 =>
      rw [hg] at h
      by_cases hp : ch2 = ch
      · simp only [hp, if_true, List.mem_singleton, Prod.mk.injEq] at h
        exact ⟨[], h.2.symm ▸ rfl⟩
      · simp [hp] at h
  | .plusG p, s, i, c, j, c2 => by
    intro h
    simp only [matchItem, List.mem_map, List.mem_range] at h
    obtain ⟨k, hk, heq⟩ := h
    obtain ⟨-, h2⟩ := Prod.mk.injEq .. |>.mp heq
    exact ⟨[], h2 ▸ rfl⟩
  | .plusL p, s, i, c, j, c2 => by
    intro h
    simp only [matchItem, List.mem_map, List.mem_range] at h
    obtain ⟨k, hk, heq⟩ := h
    obtain ⟨-, h2⟩ := Prod.mk.injEq .. |>.mp heq
    exact ⟨[], h2 ▸ rfl⟩
  | .repG lo hi p, s, i, c, j, c2 => by
    intro h
    simp only [matchItem] at h
    split at h
    · simp at h
    · simp only [List.mem_map, List.mem_range] at h
      obtain ⟨k, hk, heq⟩ := h
      obtain ⟨-, h2⟩ := Prod.mk.injEq .. |>.mp heq
      exact ⟨[], h2 ▸ rfl⟩
  | .optG rs, s, i, c, j, c2 => by
    intro h
    simp only [matchItem, List.mem_append] at h
    rcases h with h | h
    · exact matchSeq_suffix rs s i c j c2 h
    · simp only [List.mem_singleton, Prod.mk.injEq] at h
      exact ⟨[], h.2.symm ▸ rfl⟩
  | .grp idx rs, s, i, c, j, c2 => by
    intro h
    simp only [matchItem, List.mem_map] at h
    obtain ⟨⟨m, cm⟩, hm, heq⟩ := h
    obtain ⟨h1, h2⟩ := Prod.mk.injEq .. |>.mp heq
    obtain ⟨pre, hpre⟩ := matchSeq_suffix rs s i c m cm hm
    exact ⟨(idx, i, m) :: pre, by rw [← h2, hpre]; rfl⟩
  | .alt2 a b, s, i, c, j, c2 => by
    intro h
    simp only [matchItem, List.mem_append] at h
    rcases h with h | h
    · exact matchSeq_suffix a s i c j c2 h
    · exact matchSeq_suffix b s i c j c2 h
  | .wb, s, i, c, j, c2 => by
    intro h
    simp only [matchItem] at h
    split at h
    · simp only [List.mem_singleton, Prod.mk.injEq] at h
      exact ⟨[], h.2.symm ▸ rfl⟩
    · simp at h

theorem matchSeq_suffix : ∀ (rs : RSeq) (s : List Char) (i : Nat) (c : Caps)
    (j : Nat) (c2 : Caps), (j, c2) ∈ matchSeq rs s i c → ∃ pre, c2 = pre ++ c
  | .nil, s, i, c, j, c2 => by
    intro h
    simp only [matchSeq, List.mem_singleton, Prod.mk.injEq] at h
    exact ⟨[], h.2.symm ▸ rfl⟩
  | .cons r rs, s, i, c, j, c2 => by
    intro h
    simp only [matchSeq, List.mem_flatMap] at h
    obtain ⟨⟨m, cm⟩, hm, htail⟩ := h
    obtain ⟨p1, hp1⟩ := matchItem_suffix r s i c m cm hm
    obtain ⟨p2, hp2⟩ := matchSeq_suffix rs s m cm j c2 htail
    exact ⟨p2 ++ p1, by rw [hp2, hp1, List.append_assoc]⟩
end

mutual
theorem matchItem_caps : ∀ (r : RItem) (s : List Char) (i : Nat) (c : Caps)
    (j : Nat) (c2 : Caps), (j, c2) ∈ matchItem r s i c →
    ∀ k, k ∉ capIdxsItem r → lookupCap c2 k = lookupCap c k
  | .cls p, s, i, c, j, c2 => by
    intro h k _
    simp only [matchItem] at h
    cases hg : s[i]? with
    | none => rw [hg] at h; simp at h
    | some ch =>
      rw [hg] at h
      by_cases hp : p ch
      · simp only [hp, if_true, List.mem_singleton, Prod.mk.injEq] at h
        rw [h.2]
      · simp [hp] at h
  | .lit ch, s, i, c, j, c2 => by
    intro h k _
    simp only [matchItem] at h
    cases hg : s[i]? with
    | none => rw [hg] at h; simp at h
    | some ch2 =>
      rw [hg] at h
      by_cases hp : ch2 = ch
      · simp only [hp, if_true, List.mem_singleton, Prod.mk.injEq] at h
        rw [h.2]
      · simp [hp] at h
  | .plusG p, s, i, c, j, c2 => by
    intro h k _
    simp only [matchItem, List.mem_map, List.mem_range] at h
    obtain ⟨x, hx, heq⟩ := h
    obtain ⟨-, h2⟩ := Prod.mk.injEq .. |>.mp heq
    rw [← h2]
  | .plusL p, s, i, c, j, c2 => by
    intro h k _
    simp only [matchItem, List.mem_map, List.mem_range] at h
    obtain ⟨x, hx, heq⟩ := h
    obtain ⟨-, h2⟩ := Prod.mk.injEq .. |>.mp heq
    rw [← h2]
  | .repG lo hi p, s, i, c, j, c2 => by
    intro h k _
    simp only [matchItem] at h
    split at h
    · simp at h
    · simp only [List.mem_map, List.mem_range] at h
      obtain ⟨x, hx, heq⟩ := h
      obtain ⟨-, h2⟩ := Prod.mk.injEq .. |>.mp heq
      rw [← h2]
  | .optG rs, s, i, c, j, c2 => by
    intro h k hk
    simp only [capIdxsItem] at hk
    simp only [matchItem, List.mem_append] at h
    rcases h with h | h
    · exact matchSeq_caps rs s i c j c2 h k hk
    · simp only [List.mem_singleton, Prod.mk.injEq] at h
      rw [h.2]
  | .grp idx rs, s, i, c, j, c2 => by
    intro h k hk
    simp only [capIdxsItem, List.mem_cons] at hk
    push_neg at hk
    simp only [matchItem, List.mem_map] at h
    obtain ⟨⟨m, cm⟩, hm, heq⟩ := h
    obtain ⟨-, h2⟩ := Prod.mk.injEq .. |>.mp heq
    rw [← h2]
    have hne : ¬(idx = k) := fun hh => hk.1 hh.symm
    simp only [lookupCap, if_neg hne]
    exact matchSeq_caps rs s i c m cm hm k hk.2
  | .alt2 a b, s, i, c, j, c2 => by
    intro h k hk
    simp only [capIdxsItem, List.mem_append] at hk
    push_neg at hk
    simp only [matchItem, List.mem_append] at h
    rcases h with h | h
    · exact matchSeq_caps a s i c j c2 h k hk.1
    · exact matchSeq_caps b s i c j c2 h k hk.2
  | .wb, s, i, c, j, c2 => by
    intro h k _
    simp only [matchItem] at h
    split at h
    · simp only [List.mem_singleton, Prod.mk.injEq] at h
      rw [h.2]
    · simp at h

theorem matchSeq_caps : ∀ (rs : RSeq) (s : List Char) (i : Nat) (c : Caps)
    (j : Nat) (c2 : Caps), (j, c2) ∈ matchSeq rs s i c →
    ∀ k, k ∉ capIdxsSeq rs → lookupCap c2 k = lookupCap c k
  | .nil, s, i, c, j, c2 => by
    intro h k _
    simp only [matchSeq, List.mem_singleton, Prod.mk.injEq] at h
    rw [h.2]
  | .cons r rs, s, i, c, j, c2 => by
    intro h k hk
    simp only [capIdxsSeq, List.mem_append] at hk
    push_neg at hk
    simp only [matchSeq, List.mem_flatMap] at h
    obtain ⟨⟨m, cm⟩, hm, htail⟩ := h
    rw [matchSeq_caps rs s m cm j c2 htail k hk.2]
    exact matchItem_caps r s i c m cm hm k hk.1
end

mutual
theorem matchItem_mand : ∀ (r : RItem) (s : List Char) (i : Nat) (c : Caps)
    (j : Nat) (c2 : Caps), (j, c2) ∈ matchItem r s i c →
    ∀ k ∈ mandIdxsItem r, ∃ ab, lookupCap c2 k = some ab
  | .cls p, _, _, _, _, _ => by intro _ k hk; simp [mandIdxsItem] at hk
  | .lit ch, _, _, _, _, _ => by intro _ k hk; simp [mandIdxsItem] at hk
  | .plusG p, _, _, _, _, _ => by intro _ k hk; simp [mandIdxsItem] at hk
  | .plusL p, _, _, _, _, _ => by intro _ k hk; simp [mandIdxsItem] at hk
  | .repG lo hi p, _, _, _, _, _ => by intro _ k hk; simp [mandIdxsItem] at hk
  | .optG rs, _, _, _, _, _ => by intro _ k hk; simp [mandIdxsItem] at hk
  | .grp idx rs, s, i, c, j, c2 => by
    intro h k hk
    simp only [mandIdxsItem, List.mem_cons] at hk
    simp only [matchItem, List.mem_map] at h
    obtain ⟨⟨m, cm⟩, hm, heq⟩ := h
    obtain ⟨-, h2⟩ := Prod.mk.injEq .. |>.mp heq
    rw [← h2]
    by_cases hik : idx = k
    · exact ⟨(i, m), by simp [lookupCap, hik]⟩
    · rcases hk with hk | hk
      · exact absurd hk.symm hik
      · obtain ⟨ab, hab⟩ := matchSeq_mand rs s i c m cm hm k hk
        exact ⟨ab, by simpa [lookupCap, hik] using hab⟩
  | .alt2 a b, _, _, _, _, _ => by intro _ k hk; simp [mandIdxsItem] at hk
  | .wb, _, _, _, _, _ => by intro _ k hk; simp [mandIdxsItem] at hk

theorem matchSeq_mand : ∀ (rs : RSeq) (s : List Char) (i : Nat) (c : Caps)
    (j : Nat) (c2 : Caps), (j, c2) ∈ matchSeq rs s i c →
    ∀ k ∈ mandIdxsSeq rs, ∃ ab, lookupCap c2 k = some ab
  | .nil, _, _, _, _, _ => by intro _ k hk; simp [mandIdxsSeq] at hk
  | .cons r rs, s, i, c, j, c2 => by
    intro h k hk
    simp only [mandIdxsSeq, List.mem_append] at hk
    simp only [matchSeq, List.mem_flatMap] at h
    obtain ⟨⟨m, cm⟩, hm, htail⟩ := h
    rcases hk with hk | hk
    · obtain ⟨ab, hab⟩ := matchItem_mand r s i c m cm hm k hk
      obtain ⟨pre, hpre⟩ := matchSeq_suffix rs s m cm j c2 htail
      exact hpre ▸ lookupCap_append_some hab
    · exact matchSeq_mand rs s m cm j c2 htail k hk
end

theorem matchItem_grp_span {idx : Nat} {rs : RSeq} {s : List Char} {i : Nat} {c : Caps}
    {j : Nat} {c2 : Caps} (h : (j, c2) ∈ matchItem (.grp idx rs) s i c) :
    ∃ cm, (j, cm) ∈ matchSeq rs s i c ∧ c2 = (idx, i, j) :: cm := by
  simp only [matchItem, List.mem_map] at h
  obtain ⟨⟨m, cm⟩, hm, heq⟩ := h
  obtain ⟨h1, h2⟩ := Prod.mk.injEq .. |>.mp heq
  exact ⟨cm, h1 ▸ hm, by rw [← h2, h1]⟩

theorem matchItem_plusL_advance {p : Char → Bool} {s : List Char} {i : Nat} {c : Caps}
    {j : Nat} {c2 : Caps} (h : (j, c2) ∈ matchItem (.plusL p) s i c) :
    i + 1 ≤ j ∧ c2 = c := by
  simp only [matchItem, List.mem_map, List.mem_range] at h
  obtain ⟨k, hk, heq⟩ := h
  obtain ⟨h1, h2⟩ := Prod.mk.injEq .. |>.mp heq
  exact ⟨by omega, h2.symm⟩

theorem matchItem_plusG_advance {p : Char → Bool} {s : List Char} {i : Nat} {c : Caps}
    {j : Nat} {c2 : Caps} (h : (j, c2) ∈ matchItem (.plusG p) s i c) :
    i + 1 ≤ j ∧ c2 = c := by
  simp only [matchItem, List.mem_map, List.mem_range] at h
  obtain ⟨k, hk, heq⟩ := h
  obtain ⟨h1, h2⟩ := Prod.mk.injEq .. |>.mp heq
  exact ⟨by omega, h2.symm⟩

theorem matchSeq_single {r : RItem} {s : List Char} {i : Nat} {c : Caps}
    {j : Nat} {c2 : Caps} :
    (j, c2) ∈ matchSeq (rseq [r]) s i c ↔ (j, c2) ∈ matchItem r s i c := by
  simp only [rseq, matchSeq, List.mem_flatMap, List.mem_singleton]
  constructor
  · rintro ⟨⟨m, cm⟩, hm, heq⟩
    rw [heq]
    simpa using hm
  · intro h
    exact ⟨(j, c2), h, rfl⟩

theorem rsearchAux_mem {rs : RSeq} {s : List Char} :
    ∀ (fuel i : Nat) {a b : Nat} {c : Caps},
      rsearchAux rs s i fuel = some (a, b, c) → (b, c) ∈ matchSeq rs s a [] := by
  intro fuel
  induction fuel with
  | zero => intro i a b c h; simp [rsearchAux] at h
  | succ n ih =>
    intro i a b c h
    simp only [rsearchAux] at h
    cases hh : (matchSeq rs s i []).head? with
    | some jc =>
      rw [hh] at h
      obtain ⟨jc1, jc2⟩ := jc
      simp only [Option.some.injEq, Prod.mk.injEq] at h
      obtain ⟨h1, h2, h3⟩ := h
      rw [← h1, ← h2, ← h3]
      exact List.mem_of_mem_head? (by rw [hh]; rfl)
    | none =>
      rw [hh] at h
      exact ih (i + 1) h

theorem rsearch_mem {rs : RSeq} {s : List Char} {a b : Nat} {c : Caps}
    (h : rsearch rs s = some (a, b, c)) : (b, c) ∈ matchSeq rs s a [] :=
  rsearchAux_mem _ _ h

theorem rmatch_mem {rs : RSeq} {s : List Char} {j : Nat} {c : Caps}
    (h : rmatch rs s = some (j, c)) : (j, c) ∈ matchSeq rs s 0 [] :=
  List.mem_of_mem_head? (by rw [rmatch] at h; rw [h]; rfl)

theorem matchItem_lit_advance {ch : Char} {s : List Char} {i : Nat} {c : Caps}
    {j : Nat} {c2 : Caps} (h : (j, c2) ∈ matchItem (.lit ch) s i c) :
    j = i + 1 ∧ c2 = c := by
  simp only [matchItem] at h
  cases hg : s[i]? with
  | none => rw [hg] at h; simp at h
  | some ch2 =>
    rw [hg] at h
    by_cases hp : ch2 = ch
    · simp only [hp, if_true, List.mem_singleton, Prod.mk.injEq] at h
      exact ⟨h.1, h.2⟩
    · simp [hp] at h

theorem authRegex_match_spans {line : List Char} {j : Nat} {caps : Caps}
    (h : rmatch authRegex line = some (j, caps)) :
    ∃ g1e g2s g2e g3s g3e g5s,
      lookupCap caps 1 = some (0, g1e) ∧
      lookupCap caps 2 = some (g2s, g2e) ∧
      lookupCap caps 3 = some (g3s, g3e) ∧
      lookupCap caps 5 = some (g5s, j) ∧
      g3s + 1 ≤ g3e ∧ g3e ≤ line.length ∧ g5s + 1 ≤ j ∧ j ≤ line.length := by
  have hmem := rmatch_mem h
  simp only [authRegex, rseq, matchSeq, List.mem_flatMap] at hmem
  obtain ⟨⟨m1, c1⟩, h1, hmem⟩ := hmem
  obtain ⟨⟨m2, c2⟩, h2, hmem⟩ := hmem
  obtain ⟨⟨m3, c3⟩, h3, hmem⟩ := hmem
  obtain ⟨⟨m4, c4⟩, h4, hmem⟩ := hmem
  obtain ⟨⟨m5, c5⟩, h5, hmem⟩ := hmem
  obtain ⟨⟨m6, c6⟩, h6, hmem⟩ := hmem
  obtain ⟨⟨m7, c7⟩, h7, hmem⟩ := hmem
  obtain ⟨⟨m8, c8⟩, h8, hmem⟩ := hmem
  obtain ⟨⟨m9, c9⟩, h9, hmem⟩ := hmem
  dsimp only at h2 h3 h4 h5 h6 h7 h8 h9 hmem
  simp only [List.mem_singleton, Prod.mk.injEq] at hmem
  obtain ⟨hj, hcaps⟩ := hmem
  have hB1 := matchItem_bounds _ line 0 [] m1 c1 h1
  have hB2 := matchItem_bounds _ line m1 c1 m2 c2 h2
  have hB3 := matchItem_bounds _ line m2 c2 m3 c3 h3
  have hB4 := matchItem_bounds _ line m3 c3 m4 c4 h4
  have hB5 := matchItem_bounds _ line m4 c4 m5 c5 h5
  have hB6 := matchItem_bounds _ line m5 c5 m6 c6 h6
  have hB7 := matchItem_bounds _ line m6 c6 m7 c7 h7
  have hB8 := matchItem_bounds _ line m7 c7 m8 c8 h8
  have hB9 := matchItem_bounds _ line m8 c8 m9 c9 h9
  obtain ⟨cm1, hb1, hc1⟩ := matchItem_grp_span h1
  obtain ⟨cm3, hb3, hc3⟩ := matchItem_grp_span h3
  obtain ⟨cm5, hb5, hc5⟩ := matchItem_grp_span h5
  obtain ⟨cm9, hb9, hc9⟩ := matchItem_grp_span h9
  obtain ⟨hm2, he2⟩ := matchItem_plusG_advance h2
  obtain ⟨hm4, he4⟩ := matchItem_plusG_advance h4
  obtain ⟨hm7, he7⟩ := matchItem_lit_advance h7
  obtain ⟨hm8, he8⟩ := matchItem_plusG_advance h8
  obtain ⟨hadv3, hcm3⟩ := matchItem_plusG_advance (matchSeq_single.mp hb3)
  obtain ⟨hadv5, hcm5⟩ := matchItem_plusL_advance (matchSeq_single.mp hb5)
  obtain ⟨hadv9, hcm9⟩ := matchItem_plusG_advance (matchSeq_single.mp hb9)
  have hopt := matchItem_caps _ line m5 c5 m6 c6 h6
  have hstep : ∀ k, ¬((5:Nat) = k) → k ∉ capIdxsItem
      (RItem.optG (rseq [RItem.lit '[', RItem.grp 4 (rseq [RItem.plusG isDigitChar]),
        RItem.lit ']'])) → lookupCap caps k = lookupCap c5 k := by
    intro k hk5 hk4
    rw [hcaps, hc9]
    simp only [lookupCap, if_neg hk5]
    rw [hcm9, he8, he7]
    exact hopt k hk4
  have hl5 : lookupCap caps 5 = some (m8, m9) := by
    rw [hcaps, hc9]
    simp [lookupCap]
  have hl3 : lookupCap caps 3 = some (m4, m5) := by
    rw [hstep 3 (by decide) (by decide), hc5]
    simp [lookupCap]
  have hl2 : lookupCap caps 2 = some (m2, m3) := by
    rw [hstep 2 (by decide) (by decide), hc5]
    simp only [lookupCap, if_neg (by decide : ¬((3:Nat) = 2))]
    rw [hcm5, he4, hc3]
    simp [lookupCap]
  have hl1 : lookupCap caps 1 = some (0, m1) := by
    rw [hstep 1 (by decide) (by decide), hc5]
    simp only [lookupCap, if_neg (by decide : ¬((3:Nat) = 1))]
    rw [hcm5, he4, hc3]
    simp only [lookupCap, if_neg (by decide : ¬((2:Nat) = 1))]
    rw [hcm3, he2, hc1]
    simp [lookupCap]
  have hL0 : (0:Nat) ≤ line.length := Nat.zero_le _
  have hL1 := hB1.2 hL0
  have hL2 := hB2.2 hL1
  have hL3 := hB3.2 hL2
  have hL4 := hB4.2 hL3
  have hL5 := hB5.2 hL4
  have hL6 := hB6.2 hL5
  have hL7 := hB7.2 hL6
  have hL8 := hB8.2 hL7
  have hL9 := hB9.2 hL8
  subst hj
  exact ⟨m1, m2, m3, m4, m5, m8, hl1, hl2, hl3, hl5, by omega, by omega, by omega, by omega⟩

/-! ## Helper lemmas about the collectors -/

theorem one_le_risk_base (et : List Char) : 1 ≤ dictGetInt risk_scores et 2 := by
  simp only [risk_scores, dictGetInt]
  split_ifs <;> norm_num

theorem calculate_risk_closed (et m : List Char) :
    calculate_risk et m =
      min (dictGetInt risk_scores et 2
        + (if containsSub (lowerStr m) "failed".data then 2 else 0)
        + (if containsSub (lowerStr m) "root".data then 1 else 0)) 10 := by
  simp only [calculate_risk]
  split_ifs <;> ring_nf

theorem rsearch_mand {rs : RSeq} {s : List Char} {a b : Nat} {c : Caps}
    (h : rsearch rs s = some (a, b, c)) :
    ∀ k ∈ mandIdxsSeq rs, ∃ ab, lookupCap c k = some ab :=
  matchSeq_mand rs s a [] b c (rsearch_mem h)

theorem rsearch_nocaps {rs : RSeq} {s : List Char} {a b : Nat} {c : Caps}
    (h : rsearch rs s = some (a, b, c)) {k : Nat} (hk : k ∉ capIdxsSeq rs) :
    lookupCap c k = none :=
  matchSeq_caps rs s a [] b c (rsearch_mem h) k hk

theorem extract_user_agree {m : List Char}
    (h : rsearch userPat1 m ≠ none ∨ rsearch userPat2 m ≠ none) :
    extract_user_console m = extract_user_db m := by
  simp only [extract_user_console, extract_user_db, userLoopConsole, userLoopDB]
  cases h1 : rsearch userPat1 m with
  | some res =>
    obtain ⟨a, b, c⟩ := res
    obtain ⟨ab, hab⟩ := rsearch_mand h1 1 (by decide)
    simp [userOfMatch, hab]
  | none =>
    cases h2 : rsearch userPat2 m with
    | some res =>
      obtain ⟨a, b, c⟩ := res
      obtain ⟨ab, hab⟩ := rsearch_mand h2 1 (by decide)
      simp [userOfMatch, hab]
    | none =>
      rcases h with h | h
      · exact absurd h1 h
      · exact absurd h2 h

theorem collect_console_eq (current_year : Nat) (lines : List (List Char))
    (h : ∀ l ∈ lines, hasNonSpace l = true →
      parse_log_line_console current_year l ≠ .error ()) :
    collect_console current_year lines = .ok (lines.filterMap (lineRec current_year)) := by
  induction lines with
  | nil => simp [collect_console]
  | cons l ls ih =>
    have hl := h l (List.mem_cons_self l ls)
    have hls : ∀ x ∈ ls, hasNonSpace x = true →
        parse_log_line_console current_year x ≠ .error () :=
      fun x hx => h x (List.mem_cons_of_mem _ hx)
    by_cases hb : hasNonSpace l
    · cases hp : parse_log_line_console current_year l with
      | error e => cases e; exact absurd hp (hl hb)
      | ok o =>
        cases o with
        | none => simp [collect_console, hb, hp, lineRec, ih hls]
        | some r => simp [collect_console, hb, hp, lineRec, ih hls]
    · simp only [Bool.not_eq_true] at hb
      simp [collect_console, hb, lineRec, ih hls]

/-! ## Order instances for the two top-5 listings -/

theorem dtLe_total (a b : PyDateTime) : dtLe a b ∨ dtLe b a := by
  unfold dtLe; omega

theorem dtLe_trans {a b c : PyDateTime} (h1 : dtLe a b) (h2 : dtLe b c) : dtLe a c := by
  unfold dtLe at h1 h2 ⊢; omega

theorem dbKeyLe_total (a b : LogRecDB) : dbKeyLe a b ∨ dbKeyLe b a := by
  unfold dbKeyLe
  rcases Int.lt_trichotomy a.risk_score b.risk_score with h | h | h
  · exact Or.inl (Or.inl h)
  · rcases dtLe_total a.timestamp b.timestamp with h2 | h2
    · exact Or.inl (Or.inr ⟨h, h2⟩)
    · exact Or.inr (Or.inr ⟨h.symm, h2⟩)
  · exact Or.inr (Or.inl h)

theorem dbKeyLe_trans {a b c : LogRecDB} (h1 : dbKeyLe a b) (h2 : dbKeyLe b c) :
    dbKeyLe a c := by
  unfold dbKeyLe at h1 h2 ⊢
  rcases h1 with h1 | ⟨e1, d1⟩ <;> rcases h2 with h2 | ⟨e2, d2⟩
  · exact Or.inl (h1.trans h2)
  · exact Or.inl (e2 ▸ h1)
  · exact Or.inl (e1 ▸ h2)
  · exact Or.inr ⟨e1.trans e2, dtLe_trans d1 d2⟩

instance : IsTotal LogRecC riskOrderC :=
  ⟨fun a b => Int.le_total b.risk_score a.risk_score⟩

instance : IsTrans LogRecC riskOrderC :=
  ⟨fun _ _ _ hab hbc => le_trans hbc hab⟩

instance : IsTotal LogRecDB riskOrderDB :=
  ⟨fun a b => dbKeyLe_total b a⟩

instance : IsTrans LogRecDB riskOrderDB :=
  ⟨fun _ _ _ hab hbc => dbKeyLe_trans hbc hab⟩

theorem parse_console_none {y : Nat} {l : List Char} (h : rmatch authRegex l = none) :
    parse_log_line_console y l = .ok none := by
  simp [parse_log_line_console, h]

theorem parse_db_none {y : Nat} {l : List Char} (h : rmatch authRegex l = none) :
    parse_log_line_db y l = .ok none := by
  simp [parse_log_line_db, h]

/-! ## The claims -/

/-- C1: for every event_type and message, `_calculate_risk` returns the
fixed-table base score (AUTH_FAILURE=7, INVALID_USER=8, SUDO_COMMAND=5,
AUTH_SUCCESS=2, SESSION_OPEN=3, SESSION_CLOSE=1, CRON_JOB=1, OTHER=2),
plus 2 if the message contains "failed" case-insensitively, plus 1 if it
contains "root" case-insensitively, clamped above at 10; the result is
always an integer in `[0, 10]`. -/
theorem c1_risk_scorer_table_and_range (et m : List Char) :
    (0 ≤ calculate_risk et m ∧ calculate_risk et m ≤ 10) ∧
    calculate_risk et m =
      min (dictGetInt risk_scores et 2
        + (if containsSub (lowerStr m) "failed".data then 2 else 0)
        + (if containsSub (lowerStr m) "root".data then 1 else 0)) 10 ∧
    dictGetInt risk_scores "AUTH_FAILURE".data 2 = 7 ∧
    dictGetInt risk_scores "INVALID_USER".data 2 = 8 ∧
    dictGetInt risk_scores "SUDO_COMMAND".data 2 = 5 ∧
    dictGetInt risk_scores "AUTH_SUCCESS".data 2 = 2 ∧
    dictGetInt risk_scores "SESSION_OPEN".data 2 = 3 ∧
    dictGetInt risk_scores "SESSION_CLOSE".data 2 = 1 ∧
    dictGetInt risk_scores "CRON_JOB".data 2 = 1 ∧
    dictGetInt risk_scores "OTHER".data 2 = 2 := by
  have hb := one_le_risk_base et
  have hc := calculate_risk_closed et m
  refine ⟨⟨?_, ?_⟩, hc, by decide!, by decide!, by decide!, by decide!, by decide!,
    by decide!, by decide!, by decide!⟩
  · rw [hc]
    refine le_min ?_ (by norm_num)
    split_ifs <;> omega
  · rw [hc]
    exact min_le_right _ _

/-- C2: `_detect_event_type` is total over the eight taxonomy values
(evaluated as an ordered first-match decision list), and any process name
containing "sudo" case-insensitively is classified SUDO_COMMAND regardless
of the message and of whether the CRON_JOB rule would also match. -/
theorem c2_classifier_total_and_sudo_first (p m : List Char) :
    detect_event_type p m ∈
      ["SUDO_COMMAND".data, "SESSION_OPEN".data, "SESSION_CLOSE".data,
       "AUTH_FAILURE".data, "AUTH_SUCCESS".data, "INVALID_USER".data,
       "CRON_JOB".data, "OTHER".data] ∧
    (containsSub (lowerStr p) "sudo".data = true →
      detect_event_type p m = "SUDO_COMMAND".data) := by
  constructor
  · simp only [detect_event_type]
    split_ifs <;> simp
  · intro h
    simp [detect_event_type, h]

/-- C2 witness: a process name containing both "sudo" and "cron" is
classified SUDO_COMMAND. -/
theorem c2_classifier_witness :
    containsSub (lowerStr "cron-sudo".data) "sudo".data = true ∧
    containsSub (lowerStr "cron-sudo".data) "cron".data = true ∧
    detect_event_type "cron-sudo".data "x".data = "SUDO_COMMAND".data :=
  ⟨by decide!, by decide!,
    (c2_classifier_total_and_sudo_first "cron-sudo".data "x".data).2 (by decide!)⟩

/-- C3 counterexample: the line `"Foo 21 22:04:35 myhost sshd[1234]: hello"`
matches the structural header pattern, yet per-line parsing raises a
`ValueError` (from `datetime.strptime`) in both variants instead of
returning the no-match result. -/
theorem c3_counterexample :
    (rmatch authRegex lineBadMonth.data).isSome = true ∧
    parse_log_line_console 2025 lineBadMonth.data = .error () ∧
    parse_log_line_db 2025 lineBadMonth.data = .error () := by
  refine ⟨by decide!, by decide!, by decide!⟩

/-- C3 amended: per-line parsing never raises on lines that fail the
structural header pattern — both variants return the no-match result
(`None`), and an empty input batch produces an empty output sequence;
however, a line that matches the structural pattern but whose timestamp
text is not a valid date raises a `ValueError` that crosses the boundary
(see the counterexample). -/
theorem c3_amended (current_year : Nat) (line : List Char) :
    (rmatch authRegex line = none →
      parse_log_line_console current_year line = .ok none ∧
      parse_log_line_db current_year line = .ok none) ∧
    collect_console current_year [] = .ok [] := by
  exact ⟨fun h => ⟨parse_console_none h, parse_db_none h⟩, rfl⟩

/-- C3 witness: a structurally malformed line is silently dropped. -/
theorem c3_amended_witness :
    rmatch authRegex "garbage".data = none ∧
    parse_log_line_console 2025 "garbage".data = .ok none ∧
    parse_log_line_db 2025 "garbage".data = .ok none ∧
    collect_console 2025 [] = .ok [] :=
  ⟨by decide!, ((c3_amended 2025 "garbage".data).1 (by decide!)).1,
    ((c3_amended 2025 "garbage".data).1 (by decide!)).2, (c3_amended 2025 []).2⟩

/-- C5 counterexample: on the message `"root password changed"` neither
user pattern matches and the message contains "root", yet the console
variant returns "unknown", not "root" — the claimed root fallback only
exists in the db variant. -/
theorem c5_counterexample :
    containsSub (lowerStr "root password changed".data) "root".data = true ∧
    rsearch userPat1 "root password changed".data = none ∧
    rsearch userPat2 "root password changed".data = none ∧
    extract_user_console "root password changed".data = "unknown".data := by
  refine ⟨by decide!, by decide!, by decide!, by decide!⟩

/-- C5 amended: the db variant behaves exactly as claimed (patterns
`user (\w+)` then `for (\w+)` in order, then the case-insensitive "root"
substring fallback, else "unknown").  The console variant instead tries a
third pattern `by \(uid=<digits>\)` whose match (which captures nothing)
yields "root", and returns "unknown" otherwise, with no root-substring
fallback. -/
theorem c5_amended (m : List Char) :
    (extract_user_db m =
      match rsearch userPat1 m with
      | some res =>
        (match lookupCap res.2.2 1 with
         | some ab => extractSpan m ab.1 ab.2
         | none => [])
      | none =>
        match rsearch userPat2 m with
        | some res =>
          (match lookupCap res.2.2 1 with
           | some ab => extractSpan m ab.1 ab.2
           | none => [])
        | none =>
          if containsSub (lowerStr m) "root".data then "root".data
          else "unknown".data) ∧
    (rsearch userPat1 m = none → rsearch userPat2 m = none →
      ∀ res, rsearch uidPat m = some res → extract_user_console m = "root".data) ∧
    (rsearch userPat1 m = none → rsearch userPat2 m = none →
      rsearch uidPat m = none → extract_user_console m = "unknown".data) := by
  refine ⟨?_, ?_, ?_⟩
  · simp only [extract_user_db, userLoopDB]
    cases h1 : rsearch userPat1 m with
    | some res =>
      cases hl : lookupCap res.2.2 1 with
      | some ab => simp [hl]
      | none => simp [hl]
    | none =>
      cases h2 : rsearch userPat2 m with
      | some res =>
        cases hl : lookupCap res.2.2 1 with
        | some ab => simp [hl]
        | none => simp [hl]
      | none => simp
  · intro h1 h2 res h3
    obtain ⟨a, b, c⟩ := res
    have hcap : lookupCap c 1 = none := rsearch_nocaps h3 (by decide)
    simp [extract_user_console, userLoopConsole, h1, h2, h3, userOfMatch, hcap]
  · intro h1 h2 h3
    simp [extract_user_console, userLoopConsole, h1, h2, h3]

/-- C5 witness: on `"session closed by (uid=0)"` the first two patterns
miss and the console fallback pattern fires, yielding "root". -/
theorem c5_amended_witness :
    rsearch userPat1 "session closed by (uid=0)".data = none ∧
    rsearch userPat2 "session closed by (uid=0)".data = none ∧
    extract_user_console "session closed by (uid=0)".data = "root".data :=
  ⟨by decide!, by decide!,
    (c5_amended "session closed by (uid=0)".data).2.1 (by decide!) (by decide!)
      (15, 25, []) (by decide!)⟩

/-- C7: the concrete line
`"Jan 21 22:04:35 myhost sshd[1234]: Failed password for invalid user admin from 10.0.0.5 port 22 ssh2"`
parses (reference year 2025) to a record with event_type INVALID_USER,
user "admin" (captured by the first pattern `user (\w+)`),
ip_address "10.0.0.5" and risk_score 10 (base 8 plus 2 for "failed",
clamped at 10). -/
theorem c7_concrete_scenario :
    parse_log_line_console 2025 lineC7.data = .ok (some
      { timestamp := "2025-01-21T22:04:35".data
        hostname := "myhost".data
        process := "sshd".data
        pid := some "1234".data
        event_type := "INVALID_USER".data
        user := "admin".data
        ip_address := some "10.0.0.5".data
        message := "Failed password for invalid user admin from 10.0.0.5 port 22 ssh2".data
        risk_score := 10
        raw_log := lineC7.data }) := by
  decide!

/-- C4 counterexample: on a batch with scores `[9,9,7,8,9]` and increasing
timestamps, the console top-5 listing keeps the tied 9s in input order
(earliest first) because `display_summary` sorts by risk_score only; the
claimed timestamp-descending tie-break order differs. -/
theorem c4_counterexample :
    top5_console [evC1, evC2, evC3, evC4, evC5] = [evC1, evC2, evC5, evC4, evC3] ∧
    [evC1, evC2, evC5, evC4, evC3] ≠ ([evC5, evC2, evC1, evC4, evC3] : List LogRecC) := by
  refine ⟨by decide!, by decide!⟩

/-- C4 amended: both top-5 listings contain only events with
risk_score ≥ 5 and at most five entries.  The db listing (`display_stats`)
is ordered by risk_score descending with ties broken by timestamp
descending, as the claim states — on scores `[9,9,7,8,9]` with increasing
timestamps it is `[9(latest), 9, 9, 8, 7]`.  The console listing
(`display_summary`) is ordered by risk_score descending only; its stable
sort leaves ties in input order. -/
theorem c4_amended (dbl : List LogRecDB) (cl : List LogRecC) :
    (top5_db dbl).length ≤ 5 ∧
    (∀ e ∈ top5_db dbl, 5 ≤ e.risk_score) ∧
    List.Sorted riskOrderDB (top5_db dbl) ∧
    (top5_console cl).length ≤ 5 ∧
    (∀ e ∈ top5_console cl, 5 ≤ e.risk_score) ∧
    List.Sorted riskOrderC (top5_console cl) ∧
    top5_db [evD1, evD2, evD3, evD4, evD5] = [evD5, evD2, evD1, evD4, evD3] := by
  refine ⟨?_, ?_, ?_, ?_, ?_, ?_, by decide!⟩
  · simp [top5_db, List.length_take]
  · intro e he
    have h1 := List.mem_of_mem_take he
    rw [List.mem_insertionSort] at h1
    exact of_decide_eq_true (List.mem_filter.mp h1).2
  · exact List.Pairwise.sublist (List.take_sublist _ _)
      (List.sorted_insertionSort riskOrderDB _)
  · simp [top5_console, List.length_take]
  · intro e he
    have h1 := List.mem_of_mem_take he
    rw [List.mem_insertionSort] at h1
    exact of_decide_eq_true (List.mem_filter.mp h1).2
  · exact List.Pairwise.sublist (List.take_sublist _ _)
      (List.sorted_insertionSort riskOrderC _)

/-- C4 witness: the latest score-9 event heads the db listing and passes
the risk filter. -/
theorem c4_amended_witness :
    evD5 ∈ top5_db [evD1, evD2, evD3, evD4, evD5] ∧ 5 ≤ evD5.risk_score :=
  ⟨by decide!, (c4_amended [evD1, evD2, evD3, evD4, evD5] []).2.1 evD5 (by decide!)⟩

/-- C6 counterexample: in the batch `[lineGood, "   ", lineBadMonth2]`,
two lines are non-blank and match the header shape (M = 2), yet the
pipeline raises a `ValueError` on the second header-shaped line instead of
producing two records. -/
theorem c6_counterexample :
    hasNonSpace lineBadMonth2.data = true ∧
    (rmatch authRegex lineBadMonth2.data).isSome = true ∧
    (rmatch authRegex lineGood.data).isSome = true ∧
    collect_console 2025 [lineGood.data, "   ".data, lineBadMonth2.data] = .error () := by
  refine ⟨by decide!, by decide!, by decide!, by decide!⟩

/-- C6 amended: provided no line of the batch raises (each non-blank line
either fails the structural pattern or carries a valid timestamp), the
pipeline returns exactly one record per record-producing line, in source
order (`List.filterMap` over the lines); blank or whitespace-only lines
never contribute a record. -/
theorem c6_amended (current_year : Nat) (lines : List (List Char))
    (h : ∀ l ∈ lines, hasNonSpace l = true →
      parse_log_line_console current_year l ≠ .error ()) :
    collect_console current_year lines = .ok (lines.filterMap (lineRec current_year)) ∧
    ∀ l, hasNonSpace l = false → lineRec current_year l = none := by
  refine ⟨collect_console_eq current_year lines h, ?_⟩
  intro l hl
  simp [lineRec, hl]

/-- C6 witness: a three-line batch with one well-formed line, one blank
line and one non-matching line yields exactly the one record. -/
theorem c6_amended_witness :
    collect_console 2025 [lineGood.data, "   ".data, "garbage".data] = .ok [recGoodC] := by
  refine Eq.trans ((c6_amended 2025 [lineGood.data, "   ".data, "garbage".data] ?_).1) ?_
  · intro l hl
    simp only [List.mem_cons, List.not_mem_nil, or_false] at hl
    rcases hl with rfl | rfl | rfl
    · intro _; decide!
    · intro _; decide!
    · intro _; decide!
  · decide!

/-- C8 counterexample: the per-line transform reads the process-wide
current year, so the same input line yields different results under
different clock years — `"Feb 29 10:00:00 ..."` parses in 2024 but raises
a `ValueError` in 2025. -/
theorem c8_counterexample :
    parse_log_line_console 2024 lineFeb29.data = .ok (some
      { timestamp := "2024-02-29T10:00:00".data
        hostname := "h".data
        process := "sshd".data
        pid := none
        event_type := "AUTH_SUCCESS".data
        user := "alice".data
        ip_address := none
        message := "Accepted password for alice".data
        risk_score := 2
        raw_log := lineFeb29.data }) ∧
    parse_log_line_console 2025 lineFeb29.data = .error () := by
  refine ⟨by decide!, by decide!⟩

/-- C8 amended: the classifier and the risk scorer are pure — identical
inputs give identical outputs; the per-line transform is deterministic
once the ambient current year is fixed, and across different years the
hidden clock state can affect only the timestamp field of a produced
record (and whether parsing raises, per the counterexample). -/
theorem c8_amended :
    (∀ p m p2 m2 : List Char, p = p2 → m = m2 →
      detect_event_type p m = detect_event_type p2 m2) ∧
    (∀ et m et2 m2 : List Char, et = et2 → m = m2 →
      calculate_risk et m = calculate_risk et2 m2) ∧
    (∀ (y : Nat) (l l2 : List Char), l = l2 →
      parse_log_line_console y l = parse_log_line_console y l2) ∧
    (∀ (y1 y2 : Nat) (l : List Char) (r1 r2 : LogRecC),
      parse_log_line_console y1 l = .ok (some r1) →
      parse_log_line_console y2 l = .ok (some r2) →
      r1.hostname = r2.hostname ∧ r1.process = r2.process ∧ r1.pid = r2.pid ∧
      r1.event_type = r2.event_type ∧ r1.user = r2.user ∧
      r1.ip_address = r2.ip_address ∧ r1.message = r2.message ∧
      r1.risk_score = r2.risk_score ∧ r1.raw_log = r2.raw_log) := by
  refine ⟨?_, ?_, ?_, ?_⟩
  · intro p m p2 m2 hp hm; rw [hp, hm]
  · intro et m et2 m2 he hm; rw [he, hm]
  · intro y l l2 hl; rw [hl]
  · intro y1 y2 l r1 r2 h1 h2
    cases hm : rmatch authRegex l with
    | none =>
      rw [parse_console_none hm] at h1
      simp at h1
    | some jc =>
      obtain ⟨j, caps⟩ := jc
      obtain ⟨g1e, g2s, g2e, g3s, g3e, g5s, hl1, hl2, hl3, hl5, -, -, -, -⟩ :=
        authRegex_match_spans hm
      cases hs1 : strptimeSyslog y1 (extractSpan l 0 g1e) with
      | none => simp [parse_log_line_console, hm, hl1, hl2, hl3, hl5, hs1] at h1
      | some dt1 =>
        cases hs2 : strptimeSyslog y2 (extractSpan l 0 g1e) with
        | none => simp [parse_log_line_console, hm, hl1, hl2, hl3, hl5, hs2] at h2
        | some dt2 =>
          simp only [parse_log_line_console, hm, hl1, hl2, hl3, hl5, hs1,
            Except.ok.injEq, Option.some.injEq] at h1
          simp only [parse_log_line_console, hm, hl1, hl2, hl3, hl5, hs2,
            Except.ok.injEq, Option.some.injEq] at h2
          rw [← h1, ← h2]
          exact ⟨rfl, rfl, rfl, rfl, rfl, rfl, rfl, rfl, rfl⟩

/-- C8 witness: the same line parsed under 2024 and 2026 yields records
agreeing on every field except the timestamp. -/
theorem c8_amended_witness :
    parse_log_line_console 2024 lineGood.data = .ok (some (recGoodCY "2024")) ∧
    parse_log_line_console 2026 lineGood.data = .ok (some (recGoodCY "2026")) ∧
    ((recGoodCY "2024").hostname = (recGoodCY "2026").hostname ∧
     (recGoodCY "2024").process = (recGoodCY "2026").process ∧
     (recGoodCY "2024").pid = (recGoodCY "2026").pid ∧
     (recGoodCY "2024").event_type = (recGoodCY "2026").event_type ∧
     (recGoodCY "2024").user = (recGoodCY "2026").user ∧
     (recGoodCY "2024").ip_address = (recGoodCY "2026").ip_address ∧
     (recGoodCY "2024").message = (recGoodCY "2026").message ∧
     (recGoodCY "2024").risk_score = (recGoodCY "2026").risk_score ∧
     (recGoodCY "2024").raw_log = (recGoodCY "2026").raw_log) :=
  ⟨by decide!, by decide!,
    c8_amended.2.2.2 2024 2026 lineGood.data (recGoodCY "2024") (recGoodCY "2026")
      (by decide!) (by decide!)⟩

/-- C9 counterexample: on
`"Jan 21 22:04:35 myhost sshd[99]: root password changed"` both variants
produce a record, but the console user field is "unknown" while the db
user field is "root" — the two `_extract_user` implementations disagree. -/
theorem c9_counterexample :
    parse_log_line_console 2025 lineRoot.data = .ok (some
      { timestamp := "2025-01-21T22:04:35".data
        hostname := "myhost".data
        process := "sshd".data
        pid := some "99".data
        event_type := "OTHER".data
        user := "unknown".data
        ip_address := none
        message := "root password changed".data
        risk_score := 3
        raw_log := lineRoot.data }) ∧
    parse_log_line_db 2025 lineRoot.data = .ok (some
      { timestamp := ⟨2025, 1, 21, 22, 4, 35⟩
        hostname := "myhost".data
        process := "sshd".data
        pid := some 99
        event_type := "OTHER".data
        user_name := "root".data
        ip_address := none
        message := "root password changed".data
        risk_score := 3
        raw_log := lineRoot.data }) ∧
    ("unknown".data : List Char) ≠ "root".data := by
  refine ⟨by decide!, by decide!, by decide!⟩

/-- C9 amended: the two variants agree on whether a line produces a
record, raises, or is dropped, and on the event_type, ip_address,
risk_score, hostname, process, message and raw_log fields of a produced
record; the user field agrees whenever one of the two shared user
patterns matches the message, but may differ otherwise (console falls
back to `by \(uid=...\)`, db to the "root" substring). -/
theorem c9_amended (y : Nat) (l : List Char) :
    (parse_log_line_console y l = .ok none ↔ parse_log_line_db y l = .ok none) ∧
    (parse_log_line_console y l = .error () ↔ parse_log_line_db y l = .error ()) ∧
    (∀ rc, parse_log_line_console y l = .ok (some rc) →
      ∃ rd, parse_log_line_db y l = .ok (some rd) ∧
        rd.event_type = rc.event_type ∧ rd.ip_address = rc.ip_address ∧
        rd.risk_score = rc.risk_score ∧ rd.hostname = rc.hostname ∧
        rd.process = rc.process ∧ rd.message = rc.message ∧ rd.raw_log = rc.raw_log ∧
        ((rsearch userPat1 rc.message ≠ none ∨ rsearch userPat2 rc.message ≠ none) →
          rd.user_name = rc.user)) := by
  cases hm : rmatch authRegex l with
  | none =>
    refine ⟨by simp [parse_console_none hm, parse_db_none hm], ?_, ?_⟩
    · simp [parse_console_none hm, parse_db_none hm]
    · intro rc h
      rw [parse_console_none hm] at h
      simp at h
  | some jc =>
    obtain ⟨j, caps⟩ := jc
    obtain ⟨g1e, g2s, g2e, g3s, g3e, g5s, hl1, hl2, hl3, hl5, -, -, -, -⟩ :=
      authRegex_match_spans hm
    cases hst : strptimeSyslog y (extractSpan l 0 g1e) with
    | none =>
      refine ⟨?_, ?_, ?_⟩
      · simp [parse_log_line_console, parse_log_line_db, hm, hl1, hl2, hl3, hl5, hst]
      · simp [parse_log_line_console, parse_log_line_db, hm, hl1, hl2, hl3, hl5, hst]
      · intro rc h
        simp [parse_log_line_console, hm, hl1, hl2, hl3, hl5, hst] at h
    | some dt =>
      refine ⟨?_, ?_, ?_⟩
      · simp [parse_log_line_console, parse_log_line_db, hm, hl1, hl2, hl3, hl5, hst]
      · simp [parse_log_line_console, parse_log_line_db, hm, hl1, hl2, hl3, hl5, hst]
      · intro rc h
        simp only [parse_log_line_console, hm, hl1, hl2, hl3, hl5, hst,
          Except.ok.injEq, Option.some.injEq] at h
        refine ⟨_, by
          simp only [parse_log_line_db, hm, hl1, hl2, hl3, hl5, hst]
          rfl, ?_, ?_, ?_, ?_, ?_, ?_, ?_, ?_⟩
        · rw [← h]
        · rw [← h]
        · rw [← h]
        · rw [← h]
        · rw [← h]
        · rw [← h]
        · rw [← h]
        · intro hcond
          rw [← h] at hcond ⊢
          exact (extract_user_agree hcond).symm

/-- C9 witness: the db record for the small well-formed line agrees with
the console record on the shared fields. -/
theorem c9_amended_witness :
    ∃ rd, parse_log_line_db 2025 lineGood.data = .ok (some rd) ∧
      rd.event_type = recGoodC.event_type ∧ rd.ip_address = recGoodC.ip_address ∧
      rd.risk_score = recGoodC.risk_score ∧ rd.hostname = recGoodC.hostname ∧
      rd.process = recGoodC.process ∧ rd.message = recGoodC.message ∧
      rd.raw_log = recGoodC.raw_log ∧
      ((rsearch userPat1 recGoodC.message ≠ none ∨
        rsearch userPat2 recGoodC.message ≠ none) →
        rd.user_name = recGoodC.user) :=
  (c9_amended 2025 lineGood.data).2.2 recGoodC (by decide!)

/-- C10: every record either variant's per-line parser produces has a
non-empty process and a non-empty message (the structural pattern demands
at least one character for each), and the line
`"Jan 21 22:04:35 myhost sshd[1234]:"`, whose colon is followed by
nothing, yields no record. -/
theorem c10_nonempty_fields :
    (∀ (y : Nat) (l : List Char) (r : LogRecC),
      parse_log_line_console y l = .ok (some r) → r.process ≠ [] ∧ r.message ≠ []) ∧
    (∀ (y : Nat) (l : List Char) (r : LogRecDB),
      parse_log_line_db y l = .ok (some r) → r.process ≠ [] ∧ r.message ≠ []) ∧
    (∀ y : Nat,
      parse_log_line_console y "Jan 21 22:04:35 myhost sshd[1234]:".data = .ok none) := by
  refine ⟨?_, ?_, fun y => parse_console_none (by decide!)⟩
  · intro y l r hpr
    cases hm : rmatch authRegex l with
    | none =>
      rw [parse_console_none hm] at hpr
      simp at hpr
    | some jc =>
      obtain ⟨j, caps⟩ := jc
      obtain ⟨g1e, g2s, g2e, g3s, g3e, g5s, hl1, hl2, hl3, hl5, h3a, h3b, h5a, h5b⟩ :=
        authRegex_match_spans hm
      cases hst : strptimeSyslog y (extractSpan l 0 g1e) with
      | none => simp [parse_log_line_console, hm, hl1, hl2, hl3, hl5, hst] at hpr
      | some dt =>
        simp only [parse_log_line_console, hm, hl1, hl2, hl3, hl5, hst,
          Except.ok.injEq, Option.some.injEq] at hpr
        rw [← hpr]
        exact ⟨extractSpan_ne_nil (by omega) (by omega),
          extractSpan_ne_nil (by omega) (by omega)⟩
  · intro y l r hpr
    cases hm : rmatch authRegex l with
    | none =>
      rw [parse_db_none hm] at hpr
      simp at hpr
    | some jc =>
      obtain ⟨j, caps⟩ := jc
      obtain ⟨g1e, g2s, g2e, g3s, g3e, g5s, hl1, hl2, hl3, hl5, h3a, h3b, h5a, h5b⟩ :=
        authRegex_match_spans hm
      cases hst : strptimeSyslog y (extractSpan l 0 g1e) with
      | none => simp [parse_log_line_db, hm, hl1, hl2, hl3, hl5, hst] at hpr
      | some dt =>
        simp only [parse_log_line_db, hm, hl1, hl2, hl3, hl5, hst,
          Except.ok.injEq, Option.some.injEq] at hpr
        rw [← hpr]
        exact ⟨extractSpan_ne_nil (by omega) (by omega),
          extractSpan_ne_nil (by omega) (by omega)⟩

/-- C10 witness: the record of the small well-formed line has non-empty
process and message fields. -/
theorem c10_witness :
    parse_log_line_console 2025 lineGood.data = .ok (some recGoodC) ∧
    recGoodC.process ≠ [] ∧ recGoodC.message ≠ [] :=
  ⟨by decide!, c10_nonempty_fields.1 2025 lineGood.data recGoodC (by decide!)⟩

end SecuriWatch
